import Mathlib

deriving instance DecidableEq for Except

/-
  Verification of the correction-factor table engine of uzg_emu_check.

  Shallow embedding: `f64` values are modelled as exact rationals (ℚ); the
  floating-point constants `f64::EPSILON`, `f64::MIN` and `f64::MAX` that the
  source uses as tolerance and sentinel values are carried over as their exact
  rational values.  Fallible Rust functions returning `Result<_, EmuError>`
  become `Except EmuError _`; `&mut self` methods return the updated value.
-/

namespace EmuCheck

/-- src/errors.rs: the `EmuError` enum.  `PathBuf` is reduced to `String` and
the `IO` variant is spelled `IOError`; everything else keeps its source name. -/
inductive EmuError where
  | MachineNotFound (machine : String)
  | EnergyNotFound (energy : ℚ)
  | SSDNotFound (ssd : ℚ)
  | FdaIDNotFound (fda_id : Nat)
  | ApplicatorNotFound (applicator : String)
  | OFTableNotFound
  | Terminal (msg : String)
  | Logic (msg : String)
  | Str (msg : String)
  | Format (msg : String)
  | DirNotFound (path : String)
  | IOError (msg : String)
  deriving DecidableEq

/-- The constant `std::f64::EPSILON` = 2^-52, exactly (the denominator literal is 2^52). -/
def f64EPSILON : ℚ := 1 / 4503599627370496

/-- The constant `std::f64::MAX` = (2 - 2^-52) * 2^1023 = 2^1024 - 2^971, exactly, written
as its integer literal so that concrete evaluations need no `npow` recursion. -/
def f64MAX : ℚ := 179769313486231570814527423731704356798070567525844996598917476803157260780028538760589558632766878171540458953514382464234321326889464182768467546703537516986049910576551282076245490090389328944075868508455133942304583236903222948165808559332123348274797826204144723168738177180919299881250404026184124858368

/-- The constant `std::f64::MIN` = -`std::f64::MAX`, exactly. -/
def f64MIN : ℚ := -f64MAX

/-- src/ipol.rs: `interpolate_linear`. -/
def interpolate_linear (x x0 x1 y0 y1 : ℚ) : ℚ :=
  let dx := x1 - x0
  if |dx| ≤ f64EPSILON then y0
  else y0 + (x - x0) * (y1 - y0) / dx

/-- src/of_table.rs: the `OFTable` struct.  `table` is column-major:
`table[i]` is the output-factor column for `energies[i]`, indexed by SSD row. -/
structure OFTable where
  energies : List ℚ
  zrefs : List ℚ
  ssds : List ℚ
  table : List (List ℚ)
  deriving DecidableEq

/-- src/of_table.rs: `OFTable::new`. -/
def OFTable.new : OFTable := ⟨[], [], [], []⟩

/-- src/of_table.rs: `OFTable::set_energies`. -/
def OFTable.set_energies (t : OFTable) (values : List ℚ) : OFTable :=
  { t with energies := values }

/-- src/of_table.rs: `OFTable::set_zrefs`. -/
def OFTable.set_zrefs (t : OFTable) (values : List ℚ) : OFTable :=
  { t with zrefs := values }

/-- The per-column push loop shared by `OFTable::add_output_factor_per_ssd` and
`FdaTable::add` (`for ic in 0..n { table[ic].push(values[ic]) }`): appends
`vs[i]` to column `i` for each `i < vs.length`, leaving later columns alone. -/
def pushCols : List (List ℚ) → List ℚ → List (List ℚ)
  | cols, [] => cols
  | [], _ :: _ => []
  | c :: cs, v :: vs => (c ++ [v]) :: pushCols cs vs

/-- src/of_table.rs: `OFTable::add_output_factor_per_ssd`.  The source checks
`ofs.len()` against both `energies.len()` and `zrefs.len()`, pushes `ssd`,
allocates `energies.len()` empty columns when the table is empty, then pushes
one value per column (erroring if a column index is unavailable). -/
def OFTable.add_output_factor_per_ssd (t : OFTable) (ssd : ℚ) (ofs : List ℚ) :
    Except EmuError OFTable :=
  if ofs.length ≠ t.energies.length then
    .error (.Str ("Mismatch between the number energies [" ++
      toString t.energies.length ++ "] and the number of outputfactors [" ++
      toString ofs.length ++ "]"))
  else if ofs.length ≠ t.zrefs.length then
    .error (.Str ("Mismatch between the number zrefs [" ++
      toString t.zrefs.length ++ "] and the number of outputfactors [" ++
      toString ofs.length ++ "]"))
  else
    let tbl := if t.table.isEmpty then List.replicate t.energies.length ([] : List ℚ)
               else t.table
    if tbl.length < ofs.length then
      .error (.Logic "Expected table to have a column available")
    else
      .ok { t with ssds := t.ssds ++ [ssd], table := pushCols tbl ofs }

/-- The running state of the closest-SSD bracket search in `OFTable::get_cf`
(`x0`, `x1`, `y0`, `y1`, `dx0`, `dx1` of src/of_table.rs lines 100-105). -/
structure BracketState where
  x0 : ℚ
  x1 : ℚ
  y0 : ℚ
  y1 : ℚ
  dx0 : ℚ
  dx1 : ℚ
  deriving DecidableEq

/-- Initial bracket-search state: `x0 = f64::MIN`, `x1 = f64::MAX`,
`y0 = y1 = dx0 = dx1 = f64::MAX`. -/
def bracketInit : BracketState :=
  { x0 := f64MIN, x1 := f64MAX, y0 := f64MAX, y1 := f64MAX, dx0 := f64MAX, dx1 := f64MAX }

/-- One iteration of the bracket-search loop body of `OFTable::get_cf` on the
pair `p = (ssds[i], ofs[i])`. -/
def bracketStep (ssd : ℚ) (st : BracketState) (p : ℚ × ℚ) : BracketState :=
  let dx := |p.1 - ssd|
  let st1 := if dx ≤ st.dx0 ∧ p.1 ≤ ssd then { st with x0 := p.1, y0 := p.2, dx0 := dx } else st
  if dx ≤ st1.dx1 ∧ ssd ≤ p.1 then { st1 with x1 := p.1, y1 := p.2, dx1 := dx } else st1

/-- src/of_table.rs: `OFTable::get_cf`.  Exact-equality scan for the energy,
then the minimal-distance bracket search over all recorded SSDs, the sentinel
checks, and the final interpolation. -/
def OFTable.get_cf (t : OFTable) (energy ssd : ℚ) : Except EmuError ℚ :=
  match t.energies.findIdx? (fun x => energy == x) with
  | none => .error (.EnergyNotFound energy)
  | some energy_idx =>
    match t.table[energy_idx]? with
    | none => .error (.Logic "Energy matching outputfactor column in table was not found.")
    | some ofs =>
      if ofs.length ≠ t.ssds.length then
        .error (.Logic "Number of SSDs differs from the number of outputfactors.")
      else
        let st := (t.ssds.zip ofs).foldl (bracketStep ssd) bracketInit
        if st.x0 = f64MIN then .error (.SSDNotFound ssd)
        else if st.x1 = f64MAX then .error (.SSDNotFound ssd)
        else .ok (interpolate_linear ssd st.x0 st.x1 st.y0 st.y1)

/-- src/fda_table.rs: the `FdaTable` struct.  `table` is column-major:
`table[i]` is the correction column for `energies[i]`, indexed by row. -/
structure FdaTable where
  names : List String
  ids : List Nat
  energies : List ℚ
  table : List (List ℚ)
  deriving DecidableEq

/-- src/fda_table.rs: `FdaTable::new`. -/
def FdaTable.new : FdaTable := ⟨[], [], [], []⟩

/-- src/fda_table.rs: `FdaTable::set_energies`. -/
def FdaTable.set_energies (t : FdaTable) (values : List ℚ) : FdaTable :=
  { t with energies := values }

/-- src/fda_table.rs: `FdaTable::get_energies`. -/
def FdaTable.get_energies (t : FdaTable) : List ℚ := t.energies

/-- src/fda_table.rs: `FdaTable::add`.  Checks `corrections.len()` against
`energies.len()` only; no duplicate-id check.  The source pushes `name` and
`id` before the column loop; on the column-unavailable `Logic` path this model
returns only the error. -/
def FdaTable.add (t : FdaTable) (name : String) (id : Nat) (corrections : List ℚ) :
    Except EmuError FdaTable :=
  let n := t.energies.length
  if n ≠ corrections.length then
    .error (.Str ("Mismatch between the number energies [" ++ toString n ++
      "] and the number of correction factors [" ++ toString corrections.length ++ "]"))
  else
    let tbl := if t.table.isEmpty then List.replicate n ([] : List ℚ) else t.table
    if tbl.length < n then
      .error (.Logic "Expected table to have a column availble")
    else
      .ok { t with
            names := t.names ++ [name],
            ids := t.ids ++ [id],
            table := pushCols tbl corrections }

/-- src/fda_table.rs: `FdaTable::get_cf`.  The energy is matched with the
tolerance `|energy - energies[idx]| < f64::EPSILON`; the aperture id by exact
equality; both scans take the first matching index. -/
def FdaTable.get_cf (t : FdaTable) (energy : ℚ) (fda_id : Nat) : Except EmuError ℚ :=
  match t.energies.findIdx? (fun x => decide (|energy - x| < f64EPSILON)) with
  | none => .error (.EnergyNotFound energy)
  | some energy_idx =>
    match t.ids.findIdx? (fun i => fda_id == i) with
    | none => .error (.FdaIDNotFound fda_id)
    | some fda_idx =>
      match t.table[energy_idx]? with
      | none => .error (.Logic "Energy matching correction factor column in table was not found.")
      | some col =>
        match col[fda_idx]? with
        | none => .error (.Logic "FDA id matching correction factor column in table was not found")
        | some cf => .ok cf

/-- Modelled from the spec: `OFTable::get_energies` is called by
`CorrectionData::validate` and by the pairing loop of `load_data`, but its
definition is not among the provided sources (only `FdaTable::get_energies`
is).  Per the spec's data model the output-factor table exposes its `energies`
key sequence, so the accessor returns that field, exactly as its `FdaTable`
counterpart does. -/
def OFTable.get_energies (t : OFTable) : List ℚ := t.energies

/-- src/correction_data.rs: the `CorrectionData` struct. -/
structure CorrectionData where
  machine : String
  applicator : String
  output_factors : OFTable
  fda : FdaTable
  deriving DecidableEq

/-- src/correction_data.rs: `CorrectionData::new`. -/
def CorrectionData.new : CorrectionData :=
  { machine := "", applicator := "", output_factors := OFTable.new, fda := FdaTable.new }

/-- src/correction_data.rs: `CorrectionData::set_energies` (sets both tables). -/
def CorrectionData.set_energies (cd : CorrectionData) (values : List ℚ) : CorrectionData :=
  { cd with
    output_factors := cd.output_factors.set_energies values,
    fda := cd.fda.set_energies values }

/-- src/correction_data.rs: `CorrectionData::set_zrefs`. -/
def CorrectionData.set_zrefs (cd : CorrectionData) (values : List ℚ) : CorrectionData :=
  { cd with output_factors := cd.output_factors.set_zrefs values }

/-- src/correction_data.rs: `CorrectionData::validate` — `Vec<f64>` equality of
the two energy sequences. -/
def CorrectionData.validate (cd : CorrectionData) : Bool :=
  cd.output_factors.get_energies == cd.fda.get_energies

/-- src/correction_data.rs: `CorrectionData::add_output_factor_per_ssd`. -/
def CorrectionData.add_output_factor_per_ssd (cd : CorrectionData) (ssd : ℚ) (ofs : List ℚ) :
    Except EmuError CorrectionData :=
  match cd.output_factors.add_output_factor_per_ssd ssd ofs with
  | .error e => .error e
  | .ok t => .ok { cd with output_factors := t }

/-- src/correction_data.rs: `CorrectionData::add_field_defining_aperture`. -/
def CorrectionData.add_field_defining_aperture (cd : CorrectionData) (name : String)
    (id : Nat) (corrections : List ℚ) : Except EmuError CorrectionData :=
  match cd.fda.add name id corrections with
  | .error e => .error e
  | .ok t => .ok { cd with fda := t }

/-- src/correction_data.rs: `CorrectionData::get_correction_factor` — the
product of the OF lookup and the FDA lookup, propagating the first error. -/
def CorrectionData.get_correction_factor (cd : CorrectionData) (energy ssd : ℚ)
    (fda_id : Nat) : Except EmuError ℚ :=
  match cd.output_factors.get_cf energy ssd with
  | .error e => .error e
  | .ok cf_of =>
    match cd.fda.get_cf energy fda_id with
    | .error e => .error e
    | .ok cf_fda => .ok (cf_of * cf_fda)

/-- src/calc_param.rs: the `CalcParam` struct. -/
structure CalcParam where
  machine : String
  applicator : String
  energy : ℚ
  ssd : ℚ
  depth_zref : ℚ
  dose_zref : ℚ
  planned_beam_mu : ℚ
  fda_id : Nat
  deriving DecidableEq

/-- The value of an IEEE-754 `f64` division whose operands are finite: either a
finite value (kept exact here) or one of the non-finite results that a zero
divisor produces.  The rational model has a single zero, so the sign of a zero
divisor is not tracked; whether the result is finite does not depend on it. -/
inductive FloatVal where
  | finite (q : ℚ)
  | posInf
  | negInf
  | nan
  deriving DecidableEq

/-- Finiteness flag of a `FloatVal`. -/
def FloatVal.isFinite : FloatVal → Bool
  | .finite _ => true
  | _ => false

/-- IEEE-754 division of finite `f64` operands with a non-negative-zero
divisor, on the rational model: exact quotient when the divisor is non-zero,
otherwise the signed infinity or NaN mandated by IEEE-754. -/
def fdiv (a b : ℚ) : FloatVal :=
  if b ≠ 0 then .finite (a / b)
  else if 0 < a then .posInf
  else if a < 0 then .negInf
  else .nan

/-- src/lib.rs: `calculate_mu` — resolves the correction factor and divides the
reference dose by it (`f64` division, which yields a non-finite value rather
than failing when the factor is zero). -/
def calculate_mu (calc_param : CalcParam) (cd : CorrectionData) : Except EmuError FloatVal :=
  match cd.get_correction_factor calc_param.energy calc_param.ssd calc_param.fda_id with
  | .error e => .error e
  | .ok f => .ok (fdiv calc_param.dose_zref f)

/-- A parsed output-factor file: (machine, applicator, table), as returned by
`read_of_table`. -/
abbrev OfTuple := String × String × OFTable

/-- A parsed field-defining-aperture file: (machine, applicator, table), as
returned by `read_fda_table` (src/fda_table.rs). -/
abbrev FdaTuple := String × String × FdaTable

/-- src/correction_data.rs, `load_data` lines 220-226: the `CorrectionData`
seeded from one parsed OF tuple, before the FDA pairing loop runs. -/
def base_cd (o : OfTuple) : CorrectionData :=
  { machine := o.1, applicator := o.2.1, output_factors := o.2.2, fda := FdaTable.new }

/-- src/correction_data.rs, `load_data` lines 229-231: the pairing condition —
machine and applicator match by exact string equality and the two energy
sequences are `Vec`-equal. -/
def fdaMatches (cd : CorrectionData) (p : FdaTuple) : Bool :=
  p.1 == cd.machine && p.2.1 == cd.applicator &&
    p.2.2.get_energies == cd.output_factors.get_energies

/-- src/correction_data.rs, `load_data` lines 219-235: one iteration of the
outer pairing loop — the inner loop over all parsed FDA tuples overwrites
`cd.fda` on every match. -/
def build_cd (o : OfTuple) (vfda : List FdaTuple) : CorrectionData :=
  { base_cd o with
    fda := vfda.foldl (fun acc p => if fdaMatches (base_cd o) p then p.2.2 else acc)
      (base_cd o).fda }

/-- src/correction_data.rs, `load_data` lines 218-244: the outer pairing loop
with its fail-fast `validate()` check. -/
def assemble_cds (vfda : List FdaTuple) : List OfTuple → Except EmuError (List CorrectionData)
  | [] => .ok []
  | o :: os =>
    let cd := build_cd o vfda
    if cd.validate then
      match assemble_cds vfda os with
      | .ok rest => .ok (cd :: rest)
      | .error e => .error e
    else
      .error (.Logic ("Mismatch between the energies in the output factor " ++
        "table and the field defining aperture table."))

/-- src/correction_data.rs: the pairing and assembly phase of `load_data`,
taking the parsed (machine, applicator, table) tuples as input.  File
discovery (`get_list_data_files`) and the concurrent CSV parses are I/O and
complete before this phase; the file-count check is equivalently the
parsed-tuple count check since each file yields exactly one tuple. -/
def load_data_from_tables (vof : List OfTuple) (vfda : List FdaTuple) :
    Except EmuError (List CorrectionData) :=
  if vof.length ≠ vfda.length then
    .error (.Logic ("Number of files with output factors must be identical to " ++
      "the number of files with field defining apertures."))
  else
    match assemble_cds vfda vof with
    | .error e => .error e
    | .ok vcd =>
      if vcd.isEmpty then .error (.IOError "No configuration data was loaded.")
      else .ok vcd

/-- The sample-fixture `CorrectionData` of src/correction_data.rs
(`build_corr_table` / `build_of_table`): energies `[4,6,8,10,12]`, zrefs
`[0.89,1.36,1.81,2.31,2.78]`, ten SSD rows from 95.0 to 115.0 — built through
the insertion API, before any aperture rows are added. -/
def cdFixOfE : Except EmuError CorrectionData := do
  let cd := (CorrectionData.new.set_energies [4, 6, 8, 10, 12]).set_zrefs
    [0.89, 1.36, 1.81, 2.31, 2.78]
  let cd ← cd.add_output_factor_per_ssd 95.0 [0.865, 0.953, 0.994, 1.006, 1.037]
  let cd ← cd.add_output_factor_per_ssd 95.5 [0.856, 0.945, 0.986, 0.995, 1.026]
  let cd ← cd.add_output_factor_per_ssd 96.0 [0.843, 0.931, 0.973, 0.982, 1.011]
  let cd ← cd.add_output_factor_per_ssd 97.0 [0.818, 0.902, 0.946, 0.957, 0.982]
  let cd ← cd.add_output_factor_per_ssd 98.0 [0.792, 0.874, 0.919, 0.932, 0.953]
  let cd ← cd.add_output_factor_per_ssd 99.0 [0.764, 0.846, 0.892, 0.906, 0.926]
  let cd ← cd.add_output_factor_per_ssd 100.0 [0.736, 0.818, 0.865, 0.88, 0.899]
  let cd ← cd.add_output_factor_per_ssd 105.0 [0.619, 0.704, 0.753, 0.775, 0.791]
  let cd ← cd.add_output_factor_per_ssd 110.0 [0.526, 0.613, 0.663, 0.688, 0.706]
  let cd ← cd.add_output_factor_per_ssd 115.0 [0.442, 0.533, 0.584, 0.614, 0.63]
  pure cd

/-- The C1 fixture: the OF rows above plus the three aperture rows of the
fixture, with id 10 mapped to corrections `[2.9,2.8,2.7,2.6,2.5]` as the claim
states. -/
def cdC1E : Except EmuError CorrectionData := do
  let cd ← cdFixOfE
  let cd ← cd.add_field_defining_aperture "6x6" 1 [0.9, 0.8, 0.7, 0.6, 0.5]
  let cd ← cd.add_field_defining_aperture "4x6" 3 [1.9, 1.8, 1.7, 1.6, 1.5]
  let cd ← cd.add_field_defining_aperture "4x4" 10 [2.9, 2.8, 2.7, 2.6, 2.5]
  pure cd

/-- The C1 fixture as a plain value. -/
def cdC1 : CorrectionData := cdC1E.toOption.getD CorrectionData.new

/-- The C1 fixture with the energy-12 aperture correction for id 10 replaced by
0.98 — the value that actually reproduces the claimed plan MU. -/
def cdC1bE : Except EmuError CorrectionData := do
  let cd ← cdFixOfE
  let cd ← cd.add_field_defining_aperture "6x6" 1 [0.9, 0.8, 0.7, 0.6, 0.5]
  let cd ← cd.add_field_defining_aperture "4x6" 3 [1.9, 1.8, 1.7, 1.6, 1.5]
  let cd ← cd.add_field_defining_aperture "4x4" 10 [2.9, 2.8, 2.7, 2.6, 0.98]
  pure cd

/-- The amended C1 fixture as a plain value. -/
def cdC1b : CorrectionData := cdC1bE.toOption.getD CorrectionData.new

/-- The C1 query: energy 12.0 MeV, SSD 99.2 cm, aperture id 10, reference dose
100.0 cGy, planned MU 110.841642761819. -/
def cpC1 : CalcParam :=
  { machine := "Synergy2", applicator := "6x6", energy := 12, ssd := 99.2,
    depth_zref := 2.78, dose_zref := 100, planned_beam_mu := 110.841642761819,
    fda_id := 10 }

/-- A one-energy FDA table whose stored energy is 0.5: both 0.5 and
0.5 + 2^-53 are exactly representable `f64` values whose difference is below
`f64::EPSILON`, so the tolerance-based energy match of `FdaTable::get_cf`
cannot tell them apart. -/
def fdaC4 : FdaTable := { names := ["a"], ids := [7], energies := [1/2], table := [[3/2]] }

/-- A `CorrectionData` whose two energy sequences hold the same energies in
different orders. -/
def cdC5 : CorrectionData :=
  { machine := "", applicator := "",
    output_factors := { OFTable.new with energies := [4, 6] },
    fda := { FdaTable.new with energies := [6, 4] } }

/-- A minimal valid OF table for the loader fixtures. -/
def oftDup : OFTable := { energies := [4], zrefs := [1], ssds := [100], table := [[1]] }

/-- A minimal FDA tuple payload matching `oftDup`'s energy list. -/
def fdtDup : FdaTable := { names := ["a"], ids := [1], energies := [4], table := [[2]] }

/-- The `CorrectionData` that pairing ("M", "A", `oftDup`) with
("M", "A", `fdtDup`) produces. -/
def cdDup : CorrectionData :=
  { machine := "M", applicator := "A", output_factors := oftDup, fda := fdtDup }

/-- A second FDA tuple payload with the same energies as `fdtDup` but a
different correction value, to observe which of two matches is attached. -/
def fdtDup2 : FdaTable := { names := ["b"], ids := [1], energies := [4], table := [[3]] }

/-- The `CorrectionData` produced when both `fdtDup` and `fdtDup2` match: the
pairing loop leaves the later tuple, `fdtDup2`, attached. -/
def cdLast : CorrectionData :=
  { machine := "M", applicator := "A", output_factors := oftDup, fda := fdtDup2 }

/-- An OF table with one energy but no zrefs set: row insertion is rejected
even though the row length equals the number of energies. -/
def oftC8 : OFTable := { energies := [4], zrefs := [], ssds := [], table := [] }

/-- A well-formed empty OF table with one energy and one zref, accepting
one-value rows. -/
def oftC8b : OFTable := { energies := [4], zrefs := [1], ssds := [], table := [] }

/-- An FDA table with a duplicated aperture id 10 whose two rows carry the
distinct corrections 7 and 9 for the single energy 4. -/
def fdaC10 : FdaTable :=
  { names := ["a", "b", "c"], ids := [1, 10, 10], energies := [4], table := [[5, 7, 9]] }

/-- The bracket-search state after the exact SSD match `(s, v)` has been
processed: both bracket ends sit on `s` with value `v` at distance 0. -/
def hitState (s v : ℚ) : BracketState :=
  { x0 := s, x1 := s, y0 := v, y1 := v, dx0 := 0, dx1 := 0 }

/-
  Theorems.

  The rational operations of Batteries are `@[irreducible]`, which blocks
  `decide` on concrete evaluations; restore default transparency locally so
  that concrete instances of the embedded functions evaluate in proofs.
-/

section Claims

attribute [local semireducible] Rat.add Rat.mul Rat.inv Rat.sub Rat.ofScientific

set_option maxRecDepth 100000

/-- C1 (counterexample): on exactly the fixture the claim states — aperture
id 10 mapped to corrections `[2.9,2.8,2.7,2.6,2.5]` — `calculate_mu` with
reference dose 100.0 cGy returns 200000/4603 ≈ 43.45, which differs from the
claimed plan value 110.841642761819 by more than 67, far beyond any
floating-point tolerance (the integration test's own tolerance is
`f32::EPSILON` ≈ 1.2e-7). -/
theorem c1_mu_differs_from_plan :
    cdC1E = Except.ok cdC1 ∧
    calculate_mu cpC1 cdC1 = .ok (.finite (200000 / 4603)) ∧
    (110.841642761819 : ℚ) - 200000 / 4603 > 67 := by
  refine ⟨by decide, by decide, by decide⟩

/-- C1 (amended): the product structure holds exactly as claimed — the
SSD-interpolated output factor at (12.0, 99.2) is 4603/5000 = 0.9206, the
aperture lookup for id 10 returns exactly 2.5, and the combined factor is
their product — and `calculate_mu` with reference dose 100.0 reproduces the
plan value 110.841642761819 (to well within floating-point tolerance) once
the energy-12 aperture correction for id 10 is 0.98 instead of 2.5. -/
theorem c1_product_structure_and_amended_mu :
    cdC1.output_factors.get_cf 12 99.2 = .ok (4603 / 5000) ∧
    cdC1.fda.get_cf 12 10 = .ok (5 / 2) ∧
    cdC1.get_correction_factor 12 99.2 10 = .ok (4603 / 5000 * (5 / 2)) ∧
    cdC1bE = Except.ok cdC1b ∧
    calculate_mu cpC1 cdC1b = .ok (.finite (25000000 / 225547)) ∧
    |25000000 / 225547 - (110.841642761819 : ℚ)| < 1 / 10 ^ 9 := by
  refine ⟨by decide, by decide, by decide, by decide, by decide, by decide⟩

/-- C4 (counterexample): `FdaTable::get_cf` matches the energy with an
`f64::EPSILON` tolerance, not exactly: querying 1/2 + 2^-53 — distinct from,
but within epsilon of, the stored energy 1/2, with both values and their
difference exactly representable in `f64` — returns the stored correction
instead of failing with EnergyNotFound. -/
theorem c4_fda_energy_tolerance_match :
    fdaC4.get_cf (1 / 2 + 1 / 9007199254740992) 7 = .ok (3 / 2) ∧
    (1 / 2 + 1 / 9007199254740992 : ℚ) ∉ fdaC4.energies := by
  refine ⟨by decide, by decide⟩

/-- C5 (counterexample): a `CorrectionData` whose OF and FDA energy sequences
are permutations of each other — equal in membership, differently ordered —
fails `validate()`, contradicting the claim that membership equality suffices
regardless of order. -/
theorem c5_validate_rejects_permuted_energies :
    cdC5.validate = false ∧
    cdC5.output_factors.get_energies.Perm cdC5.fda.get_energies := by
  refine ⟨by decide, by decide⟩

/-- C5 (amended): `validate()` compares the two energy sequences with `Vec`
equality, so it returns true exactly when they are equal as lists — same
length, same values, same order; membership-equal but reordered sequences are
rejected. -/
theorem c5_validate_iff_sequences_equal (cd : CorrectionData) :
    cd.validate = true ↔ cd.output_factors.get_energies = cd.fda.get_energies := by
  simp [CorrectionData.validate]

/-- C6 (counterexample): the loader does not reject duplicate
(machine, applicator) pairs: pairing two parsed OF tuples that carry the same
machine "M" and applicator "A" with matching FDA tuples succeeds and returns
both entries. -/
theorem c6_loader_returns_duplicate_pairs :
    load_data_from_tables [("M", "A", oftDup), ("M", "A", oftDup)]
        [("M", "A", fdtDup), ("M", "A", fdtDup)] = .ok [cdDup, cdDup] ∧
    cdDup.machine = "M" ∧ cdDup.applicator = "A" := by
  refine ⟨by decide, by decide, by decide⟩

/-- C7 (counterexample): when two parsed FDA tuples both match an OF tuple on
(machine, applicator) and energy sequence, the assembled `CorrectionData`
carries the second (later) tuple's table `fdtDup2`, not the first match
`fdtDup` — the inner pairing loop overwrites `cd.fda` on every match. -/
theorem c7_later_match_overwrites_earlier :
    load_data_from_tables [("M", "A", oftDup), ("M", "A", oftDup)]
        [("M", "A", fdtDup), ("M", "A", fdtDup2)] = .ok [cdLast, cdLast] ∧
    cdLast.fda = fdtDup2 ∧ fdtDup ≠ fdtDup2 := by
  refine ⟨by decide, by decide, by decide⟩

/-- C8 (counterexample): `add_output_factor_per_ssd` can fail even when the
row length equals the number of energies: with one energy but no zrefs set,
adding a one-value row is rejected (the source also checks the row length
against `zrefs.len()`), refuting the claimed "if and only if". -/
theorem c8_add_row_rejected_despite_energy_match :
    (oftC8.add_output_factor_per_ssd 95 [1 / 2]).toOption = none ∧
    [(1 : ℚ) / 2].length = oftC8.energies.length := by
  refine ⟨by decide, by decide⟩

/-- Both recorded bracket distances stay non-negative under one search step. -/
theorem bracketStep_dx_nonneg (s : ℚ) (st : BracketState) (p : ℚ × ℚ)
    (h0 : 0 ≤ st.dx0) (h1 : 0 ≤ st.dx1) :
    0 ≤ (bracketStep s st p).dx0 ∧ 0 ≤ (bracketStep s st p).dx1 := by
  simp only [bracketStep]
  split_ifs <;> simp_all [abs_nonneg]

/-- Processing the exact match `(s, v)` from any state with non-negative
recorded distances lands in the hit state. -/
theorem bracketStep_hit (s v : ℚ) (st : BracketState) (h0 : 0 ≤ st.dx0) (h1 : 0 ≤ st.dx1) :
    bracketStep s st (s, v) = hitState s v := by
  simp [bracketStep, hitState, h0, h1]

/-- A pair whose SSD differs from `s` cannot displace the hit state: its
distance is positive while the hit state records distance zero. -/
theorem bracketStep_miss (s v : ℚ) (p : ℚ × ℚ) (hp : p.1 ≠ s) :
    bracketStep s (hitState s v) p = hitState s v := by
  have h : ¬ |p.1 - s| ≤ 0 := not_le.mpr (abs_pos.mpr (sub_ne_zero.mpr hp))
  simp [bracketStep, hitState, h]

/-- The hit state absorbs any run of non-matching pairs. -/
theorem foldl_bracket_miss (s v : ℚ) :
    ∀ L : List (ℚ × ℚ), (∀ p ∈ L, p.1 ≠ s) →
      L.foldl (bracketStep s) (hitState s v) = hitState s v
  | [], _ => rfl
  | p :: L, h => by
    rw [List.foldl_cons, bracketStep_miss s v p (h p (List.mem_cons_self p L))]
    exact foldl_bracket_miss s v L (fun q hq => h q (List.mem_cons_of_mem p hq))

/-- If the pair list contains `(s, v)` and no other pair carries the SSD `s`,
the bracket search ends in the hit state, whatever it saw before or after. -/
theorem foldl_bracket_exact (s v : ℚ) :
    ∀ (L : List (ℚ × ℚ)) (st0 : BracketState), 0 ≤ st0.dx0 → 0 ≤ st0.dx1 →
      ∀ i : Nat, L[i]? = some (s, v) → (L.map Prod.fst).Nodup →
      L.foldl (bracketStep s) st0 = hitState s v := by
  intro L
  induction L with
  | nil => intro st0 _ _ i hi _; simp at hi
  | cons p L ih =>
    intro st0 h0 h1 i hi hnd
    rcases i with _ | i
    · simp only [List.getElem?_cons_zero, Option.some.injEq] at hi
      subst hi
      rw [List.foldl_cons, bracketStep_hit s v st0 h0 h1]
      refine foldl_bracket_miss s v L (fun q hq hqs => ?_)
      have hs : s ∈ L.map Prod.fst := hqs ▸ List.mem_map_of_mem Prod.fst hq
      exact (List.nodup_cons.mp hnd).1 hs
    · rw [List.foldl_cons]
      obtain ⟨k0, k1⟩ := bracketStep_dx_nonneg s st0 p h0 h1
      exact ih (bracketStep s st0 p) k0 k1 i
        (by simpa using hi) (List.nodup_cons.mp hnd).2

/-- Interpolating over a zero-width bracket returns the left value. -/
theorem interpolate_linear_degenerate (x x0 y0 y1 : ℚ) :
    interpolate_linear x x0 x0 y0 y1 = y0 := by
  simp only [interpolate_linear, sub_self, abs_zero]
  rw [if_pos]
  rw [f64EPSILON]
  norm_num

/-- C2: querying `get_cf` at an SSD equal to a recorded one returns the stored
output factor exactly, without interpolation drift — for any table whose SSD
list holds distinct values, whose matched energy column is as long as the SSD
list, and whose queried SSD is not one of the two `f64` sentinel values that
the search uses as "unset" markers. -/
theorem c2_exact_ssd_returns_stored (t : OFTable) (e s v : ℚ) (j i : Nat) (col : List ℚ)
    (hj : t.energies.findIdx? (fun x => e == x) = some j)
    (hcol : t.table[j]? = some col)
    (hlen : col.length = t.ssds.length)
    (hnd : t.ssds.Nodup)
    (hs : t.ssds[i]? = some s)
    (hv : col[i]? = some v)
    (hMin : s ≠ f64MIN)
    (hMax : s ≠ f64MAX) :
    t.get_cf e s = .ok v := by
  have hzip : (t.ssds.zip col)[i]? = some (s, v) :=
    List.getElem?_zip_eq_some.mpr ⟨hs, hv⟩
  have hmapfst : (t.ssds.zip col).map Prod.fst = t.ssds :=
    List.map_fst_zip _ _ (le_of_eq hlen.symm)
  have hpos0 : (0 : ℚ) ≤ bracketInit.dx0 := by rw [bracketInit, f64MAX]; norm_num
  have hpos1 : (0 : ℚ) ≤ bracketInit.dx1 := by rw [bracketInit, f64MAX]; norm_num
  have hfold : (t.ssds.zip col).foldl (bracketStep s) bracketInit = hitState s v :=
    foldl_bracket_exact s v _ bracketInit hpos0 hpos1 i hzip (by rw [hmapfst]; exact hnd)
  simp only [OFTable.get_cf, hj, hcol]
  rw [if_neg (not_ne_iff.mpr hlen), hfold]
  simp only [hitState]
  rw [if_neg hMin, if_neg hMax, interpolate_linear_degenerate]

/-- C2 witness: in the sample fixture, querying energy 4.0 at the recorded SSD
97.0 returns the stored output factor 0.818 exactly. -/
theorem c2_exact_ssd_witness : cdC1.output_factors.get_cf 4 97 = .ok 0.818 :=
  c2_exact_ssd_returns_stored cdC1.output_factors 4 97 0.818 0 3
    [0.865, 0.856, 0.843, 0.818, 0.792, 0.764, 0.736, 0.619, 0.526, 0.442]
    (by decide) (by decide) (by decide) (by decide) (by decide) (by decide)
    (by decide) (by decide)

/-- The `x0` side of the bracket search never moves while scanning pairs whose
SSDs all lie strictly above the query. -/
theorem foldl_bracket_x0 (s : ℚ) :
    ∀ (L : List (ℚ × ℚ)) (st0 : BracketState), (∀ p ∈ L, ¬ p.1 ≤ s) →
      (L.foldl (bracketStep s) st0).x0 = st0.x0
  | [], _, _ => rfl
  | p :: L, st0, h => by
    rw [List.foldl_cons, foldl_bracket_x0 s L _ (fun q hq => h q (List.mem_cons_of_mem p hq))]
    have hp := h p (List.mem_cons_self p L)
    simp only [bracketStep]
    split_ifs <;> simp_all

/-- The `x1` side of the bracket search never moves while scanning pairs whose
SSDs all lie strictly below the query. -/
theorem foldl_bracket_x1 (s : ℚ) :
    ∀ (L : List (ℚ × ℚ)) (st0 : BracketState), (∀ p ∈ L, ¬ s ≤ p.1) →
      (L.foldl (bracketStep s) st0).x1 = st0.x1
  | [], _, _ => rfl
  | p :: L, st0, h => by
    rw [List.foldl_cons, foldl_bracket_x1 s L _ (fun q hq => h q (List.mem_cons_of_mem p hq))]
    have hp := h p (List.mem_cons_self p L)
    simp only [bracketStep]
    split_ifs <;> simp_all

/-- C3: an SSD query strictly below every recorded SSD, or strictly above every
recorded SSD, fails with `SSDNotFound` — one bracket side keeps its sentinel
value, so no clamping or extrapolation can occur. -/
theorem c3_out_of_range_ssd_not_found (t : OFTable) (e s : ℚ) (j : Nat) (col : List ℚ)
    (hj : t.energies.findIdx? (fun x => e == x) = some j)
    (hcol : t.table[j]? = some col)
    (hlen : col.length = t.ssds.length)
    (h : (∀ x ∈ t.ssds, s < x) ∨ (∀ x ∈ t.ssds, x < s)) :
    t.get_cf e s = .error (.SSDNotFound s) := by
  simp only [OFTable.get_cf, hj, hcol]
  rw [if_neg (not_ne_iff.mpr hlen)]
  rcases h with h | h
  · have hx0 : ((t.ssds.zip col).foldl (bracketStep s) bracketInit).x0 = f64MIN := by
      rw [foldl_bracket_x0 s _ bracketInit
        (fun p hp => not_le.mpr (h p.1 (List.of_mem_zip hp).1))]
      rfl
    rw [if_pos hx0]
  · have hx1 : ((t.ssds.zip col).foldl (bracketStep s) bracketInit).x1 = f64MAX := by
      rw [foldl_bracket_x1 s _ bracketInit
        (fun p hp => not_le.mpr (h p.1 (List.of_mem_zip hp).1))]
      rfl
    by_cases hx0 : ((t.ssds.zip col).foldl (bracketStep s) bracketInit).x0 = f64MIN
    · rw [if_pos hx0]
    · rw [if_neg hx0, if_pos hx1]

/-- C3 witness: in the sample fixture (recorded SSDs 95.0 … 115.0), querying
energy 8.0 at SSD 94.9 — strictly below the minimum — fails with SSDNotFound,
as does SSD 115.1, strictly above the maximum. -/
theorem c3_out_of_range_witness :
    cdC1.output_factors.get_cf 8 94.9 = .error (.SSDNotFound 94.9) ∧
    cdC1.output_factors.get_cf 8 115.1 = .error (.SSDNotFound 115.1) :=
  ⟨c3_out_of_range_ssd_not_found cdC1.output_factors 8 94.9 2
      [0.994, 0.986, 0.973, 0.946, 0.919, 0.892, 0.865, 0.753, 0.663, 0.584]
      (by decide) (by decide) (by decide) (Or.inl (by decide)),
   c3_out_of_range_ssd_not_found cdC1.output_factors 8 115.1 2
      [0.994, 0.986, 0.973, 0.946, 0.919, 0.892, 0.865, 0.753, 0.663, 0.584]
      (by decide) (by decide) (by decide) (Or.inr (by decide))⟩

/-- C4 (amended): both tables fail with `EnergyNotFound` for absent energies,
but "absent" differs: `OFTable::get_cf` matches by exact `f64` equality while
`FdaTable::get_cf` matches within the `f64::EPSILON` tolerance, so the FDA
lookup rejects an energy only when no stored energy lies within epsilon. -/
theorem c4_energy_not_found_exact_vs_tolerance (tof : OFTable) (tfda : FdaTable)
    (e s : ℚ) (id : Nat)
    (hof : ∀ x ∈ tof.energies, e ≠ x)
    (hfda : ∀ x ∈ tfda.energies, ¬ |e - x| < f64EPSILON) :
    tof.get_cf e s = .error (.EnergyNotFound e) ∧
    tfda.get_cf e id = .error (.EnergyNotFound e) := by
  constructor
  · have hnone : tof.energies.findIdx? (fun x => e == x) = none :=
      List.findIdx?_eq_none_iff.mpr (fun x hx => beq_eq_false_iff_ne.mpr (hof x hx))
    simp [OFTable.get_cf, hnone]
  · have hnone : tfda.energies.findIdx? (fun x => decide (|e - x| < f64EPSILON)) = none :=
      List.findIdx?_eq_none_iff.mpr (fun x hx => decide_eq_false (hfda x hx))
    simp [FdaTable.get_cf, hnone]

/-- C4 witness: energy 5.0 is farther than epsilon from every fixture energy,
so both lookups reject it with EnergyNotFound. -/
theorem c4_energy_not_found_witness :
    cdC1.output_factors.get_cf 5 97 = .error (.EnergyNotFound 5) ∧
    cdC1.fda.get_cf 5 10 = .error (.EnergyNotFound 5) :=
  c4_energy_not_found_exact_vs_tolerance cdC1.output_factors cdC1.fda 5 97 10
    (by decide) (by decide)

/-- C9: `calculate_mu` returns the reference dose divided by the resolved
correction factor; when the factor is non-zero the quotient is an exact finite
value, and when the factor is zero the `f64` division yields a non-finite
(infinite or NaN) result — a flagged invalid value, never a silently wrong
finite MU. -/
theorem c9_mu_is_dose_over_factor (cp : CalcParam) (cd : CorrectionData) (f : ℚ)
    (h : cd.get_correction_factor cp.energy cp.ssd cp.fda_id = .ok f) :
    calculate_mu cp cd = .ok (fdiv cp.dose_zref f) ∧
    (f ≠ 0 → calculate_mu cp cd = .ok (.finite (cp.dose_zref / f))) ∧
    (f = 0 → ∀ r, calculate_mu cp cd = .ok r → r.isFinite = false) := by
  have hmain : calculate_mu cp cd = .ok (fdiv cp.dose_zref f) := by
    simp [calculate_mu, h]
  refine ⟨hmain, fun hf => ?_, fun hf r hr => ?_⟩
  · rw [hmain]
    simp [fdiv, hf]
  · rw [hmain] at hr
    have hrr : r = fdiv cp.dose_zref f := by
      injection hr with h'
      exact h'.symm
    subst hrr
    subst hf
    simp only [fdiv]
    split_ifs with h1 h2 h3
    · exact absurd rfl h1
    all_goals rfl

/-- C9 witness: on the sample fixture the factor resolves to 4603/2000 and the
MU is the finite quotient of the 100 cGy reference dose by that factor. -/
theorem c9_mu_witness :
    calculate_mu cpC1 cdC1 = .ok (fdiv cpC1.dose_zref (4603 / 2000)) ∧
    ((4603 : ℚ) / 2000 ≠ 0 →
      calculate_mu cpC1 cdC1 = .ok (.finite (cpC1.dose_zref / (4603 / 2000)))) ∧
    ((4603 : ℚ) / 2000 = 0 →
      ∀ r, calculate_mu cpC1 cdC1 = .ok r → r.isFinite = false) :=
  c9_mu_is_dose_over_factor cpC1 cdC1 (4603 / 2000) (by decide)

/-- C10: `FdaTable::add` accepts an aperture id that is already present — no
duplicate check exists — and `FdaTable::get_cf` resolves an id by the first
matching row, so for a table with duplicate ids the correction of the
earliest-added row is returned and later rows with that id are unreachable. -/
theorem c10_dup_ids_add_ok_and_first_wins (t : FdaTable) (name : String) (id : Nat)
    (corrections : List ℚ) (e : ℚ) (eidx fidx : Nat) (col : List ℚ) (v : ℚ)
    (hlen : corrections.length = t.energies.length)
    (hwf : t.table = [] ∨ t.energies.length ≤ t.table.length)
    (_hdup : id ∈ t.ids)
    (he : t.energies.findIdx? (fun x => decide (|e - x| < f64EPSILON)) = some eidx)
    (hfi : t.ids[fidx]? = some id)
    (hfirst : ∀ k, k < fidx → t.ids[k]? ≠ some id)
    (hcol : t.table[eidx]? = some col)
    (hv : col[fidx]? = some v) :
    (∃ t', t.add name id corrections = .ok t') ∧ t.get_cf e id = .ok v := by
  constructor
  · simp only [FdaTable.add]
    have hguard : ¬ ((if t.table.isEmpty then List.replicate t.energies.length ([] : List ℚ)
        else t.table).length < t.energies.length) := by
      by_cases hemp : t.table.isEmpty
      · simp [hemp]
      · simp only [hemp]
        rcases hwf with h0 | hle
        · rw [h0] at hemp
          simp at hemp
        · simpa using not_lt.mpr hle
    rw [if_neg (not_ne_iff.mpr hlen.symm), if_neg hguard]
    exact ⟨_, rfl⟩
  · have hflt : fidx < t.ids.length := (List.getElem?_eq_some_iff.mp hfi).1
    have hids : t.ids.findIdx? (fun i => id == i) = some fidx := by
      rw [List.findIdx?_eq_some_iff_getElem]
      refine ⟨hflt, ?_, ?_⟩
      · have heq := (List.getElem?_eq_some_iff.mp hfi).2
        simp [heq]
      · intro j hj
        have hjl : j < t.ids.length := Nat.lt_trans hj hflt
        have hne := hfirst j hj
        rw [List.getElem?_eq_getElem hjl] at hne
        simp only [ne_eq, Option.some.injEq] at hne
        simp only [beq_iff_eq]
        exact fun hh => hne hh.symm
    simp [FdaTable.get_cf, he, hids, hcol, hv]

/-- C10 witness: for the duplicate-id table (`ids = [1, 10, 10]`, energy-4
column `[5, 7, 9]`), adding another id-10 row succeeds and `get_cf` returns 7,
the value of the earliest id-10 row — not 9 from the later one. -/
theorem c10_dup_ids_witness :
    (∃ t', fdaC10.add "d" 10 [11] = .ok t') ∧ fdaC10.get_cf 4 10 = .ok 7 :=
  c10_dup_ids_add_ok_and_first_wins fdaC10 "d" 10 [11] 4 0 1 [5, 7, 9] 7
    (by decide) (Or.inr (by decide)) (by decide) (by decide) (by decide)
    (by intro k hk
        have hk0 : k = 0 := Nat.lt_one_iff.mp hk
        subst hk0
        decide)
    (by decide) (by decide)

/-- A successful pairing pass returns exactly one `CorrectionData` per parsed
OF tuple, in order, each built by `build_cd` against the full FDA tuple list. -/
theorem assemble_cds_ok (vfda : List FdaTuple) :
    ∀ (vof : List OfTuple) (l : List CorrectionData),
      assemble_cds vfda vof = .ok l → l = vof.map (fun o => build_cd o vfda)
  | [], l, h => by
    simp only [assemble_cds] at h
    injection h with h'
    simp [h'.symm]
  | o :: os, l, h => by
    simp only [assemble_cds] at h
    by_cases hv : (build_cd o vfda).validate
    · rw [if_pos hv] at h
      cases hrec : assemble_cds vfda os with
      | ok rest =>
        rw [hrec] at h
        injection h with h'
        rw [← h', List.map_cons, assemble_cds_ok vfda os rest hrec]
      | error err =>
        rw [hrec] at h
        exact absurd h (by simp)
    · rw [if_neg hv] at h
      exact absurd h (by simp)

/-- A successful `load_data` run returns exactly the per-OF-tuple assembly. -/
theorem load_data_from_tables_ok (vof : List OfTuple) (vfda : List FdaTuple)
    (l : List CorrectionData) (h : load_data_from_tables vof vfda = .ok l) :
    l = vof.map (fun o => build_cd o vfda) := by
  simp only [load_data_from_tables] at h
  by_cases hlen : vof.length ≠ vfda.length
  · rw [if_pos hlen] at h
    exact absurd h (by simp)
  · rw [if_neg hlen] at h
    cases hasm : assemble_cds vfda vof with
    | error err =>
      rw [hasm] at h
      exact absurd h (by simp)
    | ok vcd =>
      rw [hasm] at h
      dsimp only at h
      by_cases hemp : vcd.isEmpty
      · rw [if_pos hemp] at h
        exact absurd h (by simp)
      · rw [if_neg hemp] at h
        injection h with h'
        rw [← h']
        exact assemble_cds_ok vfda vof vcd hasm

/-- C6 (amended): `load_data` performs no duplicate rejection: a successful
load returns one entry per parsed OF tuple, whose (machine, applicator) pairs
are exactly those of the OF tuples in order — so duplicated pairs in the
calibration files reappear in the output (ambiguity is only detected later,
at query time, by `get_calc_param_input_cli`). -/
theorem c6_loader_passes_pairs_through (vof : List OfTuple) (vfda : List FdaTuple)
    (l : List CorrectionData) (h : load_data_from_tables vof vfda = .ok l) :
    l.map (fun cd => (cd.machine, cd.applicator)) = vof.map (fun o => (o.1, o.2.1)) := by
  rw [load_data_from_tables_ok vof vfda l h, List.map_map]
  rfl

/-- C6 witness: the duplicated-pair load yields entries whose
(machine, applicator) pairs are exactly the OF tuples' pairs, duplicate
included. -/
theorem c6_loader_passes_pairs_witness :
    ([cdDup, cdDup]).map (fun cd => (cd.machine, cd.applicator)) =
      ([("M", "A", oftDup), ("M", "A", oftDup)]).map (fun o => (o.1, o.2.1)) :=
  c6_loader_passes_pairs_through [("M", "A", oftDup), ("M", "A", oftDup)]
    [("M", "A", fdtDup), ("M", "A", fdtDup)] [cdDup, cdDup] (by decide)

/-- Folding "keep the last element satisfying `P`" over a list lands on the
last element of the filtered list, or on the seed when none matches. -/
theorem foldl_choice_last {α β : Type} (P : α → Bool) (sel : α → β) :
    ∀ (l : List α) (i : β),
      l.foldl (fun acc p => if P p then sel p else acc) i
        = ((l.filter P).getLast?).elim i sel
  | [], _ => rfl
  | a :: l, i => by
    rw [List.foldl_cons]
    by_cases hP : P a
    · rw [if_pos hP, List.filter_cons_of_pos hP,
        foldl_choice_last P sel l (sel a)]
      cases hfl : (l.filter P).getLast? with
      | none =>
        have hnil : l.filter P = [] := List.getLast?_eq_none_iff.mp hfl
        rw [hnil]
        rfl
      | some q =>
        obtain ⟨x, xs, hxs⟩ : ∃ x xs, l.filter P = x :: xs := by
          cases hc : l.filter P with
          | nil =>
            rw [hc] at hfl
            simp at hfl
          | cons x xs => exact ⟨x, xs, rfl⟩
        rw [hxs] at hfl
        rw [hxs, List.getLast?_cons_cons, hfl]
        simp
    · rw [if_neg hP, List.filter_cons_of_neg hP, foldl_choice_last P sel l i]

/-- C7 (amended): a successful load places `build_cd o vfda` at the position
of each OF tuple `o`, and the FDA table attached to it is the one of the LAST
matching FDA tuple in parse-result order (or the empty table when none
matches) — not the first match. -/
theorem c7_loader_attaches_last_match (vof : List OfTuple) (vfda : List FdaTuple)
    (l : List CorrectionData) (i : Nat) (o : OfTuple)
    (hl : load_data_from_tables vof vfda = .ok l)
    (ho : vof[i]? = some o) :
    l[i]? = some (build_cd o vfda) ∧
    (build_cd o vfda).fda =
      ((vfda.filter (fun p => fdaMatches (base_cd o) p)).getLast?).elim FdaTable.new
        (fun p => p.2.2) := by
  constructor
  · rw [load_data_from_tables_ok vof vfda l hl, List.getElem?_map, ho]
    rfl
  · show (vfda.foldl (fun acc p => if fdaMatches (base_cd o) p then p.2.2 else acc)
      (base_cd o).fda) = _
    rw [foldl_choice_last (fun p => fdaMatches (base_cd o) p) (fun p => p.2.2) vfda
      (base_cd o).fda]
    rfl

/-- C7 witness: in the two-match fixture, position 0 of the load result is the
assembled entry and its attached FDA table is the later tuple's `fdtDup2`. -/
theorem c7_loader_attaches_last_witness :
    ([cdLast, cdLast])[0]? =
      some (build_cd ("M", "A", oftDup) [("M", "A", fdtDup), ("M", "A", fdtDup2)]) ∧
    (build_cd ("M", "A", oftDup) [("M", "A", fdtDup), ("M", "A", fdtDup2)]).fda =
      ((([("M", "A", fdtDup), ("M", "A", fdtDup2)]).filter
          (fun p => fdaMatches (base_cd ("M", "A", oftDup)) p)).getLast?).elim
        FdaTable.new (fun p => p.2.2) :=
  c7_loader_attaches_last_match [("M", "A", oftDup), ("M", "A", oftDup)]
    [("M", "A", fdtDup), ("M", "A", fdtDup2)] [cdLast, cdLast] 0 ("M", "A", oftDup)
    (by decide) (by decide)

/-- The column push keeps the column count when there are at least as many columns
as pushed values. -/
theorem pushCols_length :
    ∀ (cols : List (List ℚ)) (vs : List ℚ), vs.length ≤ cols.length →
      (pushCols cols vs).length = cols.length
  | cols, [], _ => by cases cols <;> rfl
  | [], _ :: _, h => by simp at h
  | c :: cs, v :: vs, h => by
    simp only [pushCols, List.length_cons]
    rw [pushCols_length cs vs (by simpa using h)]

/-- The column push appends the `i`-th value to the `i`-th column. -/
theorem pushCols_getElem? :
    ∀ (cols : List (List ℚ)) (vs : List ℚ) (i : Nat) (v : ℚ) (c : List ℚ),
      vs[i]? = some v → cols[i]? = some c → (pushCols cols vs)[i]? = some (c ++ [v])
  | _, [], i, _, _, hv, _ => by simp at hv
  | [], _ :: _, i, _, _, _, hc => by simp at hc
  | c' :: cs, v' :: vs, 0, v, c, hv, hc => by
    simp only [List.getElem?_cons_zero, Option.some.injEq] at hv hc
    subst hv
    subst hc
    simp [pushCols]
  | c' :: cs, v' :: vs, i + 1, v, c, hv, hc => by
    simp only [List.getElem?_cons_succ] at hv hc
    simp only [pushCols, List.getElem?_cons_succ]
    exact pushCols_getElem? cs vs i v c hv hc

/-- C8 (amended): `add_output_factor_per_ssd` succeeds if and only if the row
length equals BOTH the number of energies and the number of zrefs (the claim's
"iff len(values) = len(energies)" misses the zrefs check); on success it
appends the SSD to the SSD list, allocates `len(energies)` empty columns on
the first call, and appends one value to each column. -/
theorem c8_add_row_characterization (t : OFTable) (ssd : ℚ) (ofs : List ℚ)
    (hwf : t.table = [] ∨ ofs.length ≤ t.table.length) :
    ((∃ t', t.add_output_factor_per_ssd ssd ofs = .ok t') ↔
      ofs.length = t.energies.length ∧ ofs.length = t.zrefs.length) ∧
    (∀ t', t.add_output_factor_per_ssd ssd ofs = .ok t' →
      t'.energies = t.energies ∧ t'.zrefs = t.zrefs ∧
      t'.ssds = t.ssds ++ [ssd] ∧
      (t.table = [] → t'.table.length = t.energies.length ∧
        ∀ (i : Nat) (v : ℚ), ofs[i]? = some v → t'.table[i]? = some ([v] : List ℚ)) ∧
      (t.table ≠ [] → ∀ (i : Nat) (v : ℚ) (c : List ℚ), ofs[i]? = some v → t.table[i]? = some c →
        t'.table[i]? = some (c ++ [v]))) := by
  by_cases h1 : ofs.length = t.energies.length
  · by_cases h2 : ofs.length = t.zrefs.length
    · have hguard : ¬ ((if t.table.isEmpty then List.replicate t.energies.length ([] : List ℚ)
          else t.table).length < ofs.length) := by
        by_cases hemp : t.table.isEmpty
        · simp [hemp, h1]
        · simp only [hemp]
          rcases hwf with h0 | hle
          · rw [h0] at hemp
            simp at hemp
          · simpa using not_lt.mpr hle
      have hok : t.add_output_factor_per_ssd ssd ofs =
          .ok { t with
                ssds := t.ssds ++ [ssd],
                table := pushCols (if t.table.isEmpty then
                  List.replicate t.energies.length ([] : List ℚ) else t.table) ofs } := by
        simp only [OFTable.add_output_factor_per_ssd]
        rw [if_neg (not_ne_iff.mpr h1), if_neg (not_ne_iff.mpr h2), if_neg hguard]
      constructor
      · exact ⟨fun _ => ⟨h1, h2⟩, fun _ => ⟨_, hok⟩⟩
      · intro t' ht'
        rw [hok] at ht'
        injection ht' with h'
        subst h'
        refine ⟨rfl, rfl, rfl, fun hemp => ?_, fun hne => ?_⟩
        · rw [hemp]
          simp only [List.isEmpty_nil, if_true]
          constructor
          · rw [pushCols_length _ _ (by simp [h1])]
            simp
          · intro i v hv
            have hi : i < ofs.length := (List.getElem?_eq_some_iff.mp hv).1
            have hrep : (List.replicate t.energies.length ([] : List ℚ))[i]? =
                some ([] : List ℚ) := by
              rw [List.getElem?_replicate]
              rw [if_pos (h1 ▸ hi)]
            have := pushCols_getElem? _ ofs i v [] hv hrep
            simpa using this
        · have hemp : ¬ t.table.isEmpty := by
            cases hc : t.table with
            | nil => exact absurd hc hne
            | cons a l => simp
          intro i v c hv hc
          simp only [hemp, if_false]
          exact pushCols_getElem? t.table ofs i v c hv hc
    · constructor
      · refine ⟨fun ⟨t', ht'⟩ => ?_, fun hc => absurd hc.2 h2⟩
        simp only [OFTable.add_output_factor_per_ssd] at ht'
        rw [if_neg (not_ne_iff.mpr h1), if_pos h2] at ht'
        exact absurd ht' (by simp)
      · intro t' ht'
        simp only [OFTable.add_output_factor_per_ssd] at ht'
        rw [if_neg (not_ne_iff.mpr h1), if_pos h2] at ht'
        exact absurd ht' (by simp)
  · constructor
    · refine ⟨fun ⟨t', ht'⟩ => ?_, fun hc => absurd hc.1 h1⟩
      simp only [OFTable.add_output_factor_per_ssd] at ht'
      rw [if_pos h1] at ht'
      exact absurd ht' (by simp)
    · intro t' ht'
      simp only [OFTable.add_output_factor_per_ssd] at ht'
      rw [if_pos h1] at ht'
      exact absurd ht' (by simp)

/-- C8 witness: on a well-formed one-energy, one-zref empty table, adding a
row succeeds exactly when the row holds one value. -/
theorem c8_add_row_witness :
    (∃ t', oftC8b.add_output_factor_per_ssd 95 [1 / 2] = .ok t') ↔
      ([(1 : ℚ) / 2].length = oftC8b.energies.length ∧
        [(1 : ℚ) / 2].length = oftC8b.zrefs.length) :=
  (c8_add_row_characterization oftC8b 95 [1 / 2] (Or.inl rfl)).1

end Claims

end EmuCheck
